import Mathlib

/-!
Shallow embedding of the chat-ollama persistence layer (`db_manager.py`)
and model gateway (`ollama_utils.py`, `frontend/frontend_utils.py`).

The SQLite database is modelled as an explicit state: the two tables as
lists of rows in insertion order, the AUTOINCREMENT counters, and a
logical clock standing for `CURRENT_TIMESTAMP` (strictly monotone: every
store operation reads the clock and advances it, reflecting that every
operation opens its own short-lived connection at a later wall time).
-/

namespace ChatOllama

/-- A row of the `chats` table (`init_database` in db_manager.py). -/
structure Chat where
  id : Nat
  title : String
  model : String
  created_at : Nat
  updated_at : Nat
deriving Repr, DecidableEq

/-- A row of the `messages` table (`init_database` in db_manager.py). -/
structure Message where
  id : Nat
  chat_id : Nat
  role : String
  content : String
  created_at : Nat
deriving Repr, DecidableEq

/-- The SQLite database file: both tables in row-insertion order plus the
AUTOINCREMENT counters and the logical `CURRENT_TIMESTAMP` clock. -/
structure DBState where
  chats : List Chat
  messages : List Message
  nextChatId : Nat
  nextMessageId : Nat
  clock : Nat
deriving Repr, DecidableEq

/-- The one designed failure of the store: the foreign-key violation
raised by SQLite (with `PRAGMA foreign_keys = ON`) when a message insert
references a non-existent chat. -/
inductive DBError where
  | foreignKeyViolation
deriving Repr, DecidableEq

/-- Fresh database created by `init_database`: empty tables,
AUTOINCREMENT counters at 1. -/
def initState : DBState :=
  { chats := [], messages := [], nextChatId := 1, nextMessageId := 1, clock := 0 }

/-- Comparison `ORDER BY updated_at DESC` on chat rows. -/
def updDesc (a b : Chat) : Prop := b.updated_at ≤ a.updated_at

instance : DecidableRel updDesc := fun a b => Nat.decLe _ _

instance : IsTotal Chat updDesc := ⟨fun a b => (Nat.le_total b.updated_at a.updated_at)⟩

instance : IsTrans Chat updDesc := ⟨fun _ _ _ h₁ h₂ => Nat.le_trans h₂ h₁⟩

/-- Comparison `ORDER BY created_at ASC` on message rows. -/
def createdAsc (a b : Message) : Prop := a.created_at ≤ b.created_at

instance : DecidableRel createdAsc := fun a b => Nat.decLe _ _

instance : IsTotal Message createdAsc := ⟨fun a b => Nat.le_total a.created_at b.created_at⟩

instance : IsTrans Message createdAsc := ⟨fun _ _ _ h₁ h₂ => Nat.le_trans h₁ h₂⟩

/-- Embeds `create_chat(title, model)`: INSERT INTO chats (title, model); both
timestamps take their `CURRENT_TIMESTAMP` default; returns
`cursor.lastrowid`. -/
def create_chat (s : DBState) (title model : String) : Nat × DBState :=
  let c : Chat :=
    { id := s.nextChatId, title := title, model := model,
      created_at := s.clock, updated_at := s.clock }
  (s.nextChatId,
    { s with chats := s.chats ++ [c], nextChatId := s.nextChatId + 1,
             clock := s.clock + 1 })

/-- Embeds `get_all_chats()`: SELECT ... FROM chats ORDER BY updated_at DESC. -/
def get_all_chats (s : DBState) : List Chat :=
  s.chats.insertionSort updDesc

/-- Embeds `get_chat(chat_id)`: SELECT ... FROM chats WHERE id = ?; `None` when
no row matches. -/
def get_chat (s : DBState) (chat_id : Nat) : Option Chat :=
  s.chats.find? (fun c => c.id == chat_id)

/-- Embeds `update_chat_title(chat_id, title)`: UPDATE chats SET title = ?,
updated_at = CURRENT_TIMESTAMP WHERE id = ?; silently affects zero rows
when the chat does not exist. -/
def update_chat_title (s : DBState) (chat_id : Nat) (title : String) : DBState :=
  { s with
    chats := s.chats.map (fun c =>
      if c.id == chat_id then { c with title := title, updated_at := s.clock } else c),
    clock := s.clock + 1 }

/-- Embeds `delete_chat(chat_id)`: DELETE FROM chats WHERE id = ?; the
`ON DELETE CASCADE` clause of the messages table (with
`PRAGMA foreign_keys = ON`) removes that chat's messages. -/
def delete_chat (s : DBState) (chat_id : Nat) : DBState :=
  { s with
    chats := s.chats.filter (fun c => c.id != chat_id),
    messages := s.messages.filter (fun m => m.chat_id != chat_id),
    clock := s.clock + 1 }

/-- Embeds `add_message(chat_id, role, content)`: INSERT INTO messages followed
by UPDATE of the parent chat's updated_at on the same connection,
committed together. With `PRAGMA foreign_keys = ON` the INSERT raises
`sqlite3.IntegrityError` when no chat row has id `chat_id`; the commit
never runs, so the error leaves the database unchanged. -/
def add_message (s : DBState) (chat_id : Nat) (role content : String) :
    Except DBError (Nat × DBState) :=
  if s.chats.any (fun c => c.id == chat_id) then
    let m : Message :=
      { id := s.nextMessageId, chat_id := chat_id, role := role,
        content := content, created_at := s.clock }
    Except.ok (s.nextMessageId,
      { s with
        messages := s.messages ++ [m],
        chats := s.chats.map (fun c =>
          if c.id == chat_id then { c with updated_at := s.clock } else c),
        nextMessageId := s.nextMessageId + 1,
        clock := s.clock + 1 })
  else
    Except.error DBError.foreignKeyViolation

/-- Embeds `get_messages(chat_id)`: SELECT ... FROM messages WHERE chat_id = ?
ORDER BY created_at ASC. -/
def get_messages (s : DBState) (chat_id : Nat) : List Message :=
  (s.messages.filter (fun m => m.chat_id == chat_id)).insertionSort createdAsc

/-- Embeds `clear_chat_messages(chat_id)`: DELETE FROM messages WHERE chat_id = ?
then bump the chat's updated_at. -/
def clear_chat_messages (s : DBState) (chat_id : Nat) : DBState :=
  { s with
    messages := s.messages.filter (fun m => m.chat_id != chat_id),
    chats := s.chats.map (fun c =>
      if c.id == chat_id then { c with updated_at := s.clock } else c),
    clock := s.clock + 1 }

/-- All suffixes of a character list, longest first, ending with `[]`. -/
def suffixesOf : List Char → List (List Char)
  | [] => [[]]
  | c :: cs => (c :: cs) :: suffixesOf cs

/-- SQLite `LIKE` pattern matching over case-folded characters:
`%` matches any (possibly empty) sequence, `_` matches exactly one
character, and any other pattern character matches itself. -/
def likeMatch : List Char → List Char → Bool
  | [], s => s.isEmpty
  | pc :: ps, s =>
    if pc = '%' then (suffixesOf s).any (fun t => likeMatch ps t)
    else if pc = '_' then
      match s with
      | [] => false
      | _ :: s' => likeMatch ps s'
    else
      match s with
      | [] => false
      | c :: s' => pc == c && likeMatch ps s'

/-- SQLite's default `LIKE` case folding: ASCII `A`–`Z` map to `a`–`z`,
every other character (including non-ASCII letters) is unchanged. -/
def foldChar : Char → Char
  | 'A' => 'a' | 'B' => 'b' | 'C' => 'c' | 'D' => 'd' | 'E' => 'e'
  | 'F' => 'f' | 'G' => 'g' | 'H' => 'h' | 'I' => 'i' | 'J' => 'j'
  | 'K' => 'k' | 'L' => 'l' | 'M' => 'm' | 'N' => 'n' | 'O' => 'o'
  | 'P' => 'p' | 'Q' => 'q' | 'R' => 'r' | 'S' => 's' | 'T' => 't'
  | 'U' => 'u' | 'V' => 'v' | 'W' => 'w' | 'X' => 'x' | 'Y' => 'y'
  | 'Z' => 'z'
  | c => c

/-- A string's characters after SQLite `LIKE` case folding. -/
def foldStr (s : String) : List Char := s.data.map foldChar

/-- Test `expr LIKE pattern` with SQLite's default (ASCII-case-insensitive)
semantics. -/
def likeCI (pat s : String) : Bool := likeMatch (foldStr pat) (foldStr s)

/-- Embeds `search_chats(query)`: SELECT DISTINCT c.* FROM chats c LEFT JOIN
messages m ON c.id = m.chat_id WHERE c.title LIKE '%query%' OR m.content
LIKE '%query%' ORDER BY c.updated_at DESC. A chat row survives the WHERE
clause iff its title matches or some of its messages' content matches
(for a chat with no messages the joined content is NULL and does not
match); DISTINCT keeps each such chat once. -/
def search_chats (s : DBState) (query : String) : List Chat :=
  let pat := "%" ++ query ++ "%"
  (s.chats.filter (fun c =>
    likeCI pat c.title ||
    s.messages.any (fun m => m.chat_id == c.id && likeCI pat m.content))).insertionSort updDesc

/-- Holds when `q` occurs as a contiguous substring of `s`. -/
def containsSub (q s : List Char) : Bool :=
  (suffixesOf s).any (fun t => q.isPrefixOf t)

/-- Holds when `q` occurs in `s` as a substring up to ASCII case folding — the
spec's "case-insensitive substring" reading of a search match. -/
def substrCI (q s : String) : Bool := containsSub (foldStr q) (foldStr s)

/-- The query contains neither of SQLite's `LIKE` wildcards. -/
def noWild (q : List Char) : Prop := ∀ c ∈ q, c ≠ '%' ∧ c ≠ '_'

instance (q : List Char) : Decidable (noWild q) := List.decidableBAll _ q

/-- Well-formedness of a database state; every state reachable from
`initState` through the operations above satisfies it. -/
structure WF (s : DBState) : Prop where
  chat_ids_lt : ∀ c ∈ s.chats, c.id < s.nextChatId
  msg_ids_lt : ∀ m ∈ s.messages, m.id < s.nextMessageId
  chat_ids_nodup : (s.chats.map Chat.id).Nodup
  chat_clock : ∀ c ∈ s.chats, c.updated_at < s.clock ∧ c.created_at ≤ c.updated_at
  msg_clock : ∀ m ∈ s.messages, m.created_at < s.clock
  msg_strict : s.messages.Pairwise (fun a b => a.created_at < b.created_at)

/-! ## Model gateway (`ollama_utils.py`) and title helper
(`frontend/frontend_utils.py`)

The external ollama client is an opaque collaborator; a `Backend` value
records, for one interaction, what each client call would do: succeed
with a value or raise (modelled as `Except.error`). The Python
functions' `try`/`except` structure becomes explicit matching on those
results. -/

/-- One element of a chat history: `{"role": ..., "content": ...}`. -/
structure ChatMsg where
  role : String
  content : String
deriving Repr, DecidableEq

/-- The `message` object of a (streamed or whole) chat response; the
code reads `part.message.content` / `response['message']['content']`. -/
structure ChunkMsg where
  content : String
deriving Repr, DecidableEq

/-- One chunk of a streaming chat response. -/
structure Chunk where
  message : ChunkMsg
deriving Repr, DecidableEq

/-- Behaviour of the external ollama client during one interaction:
`showModel` is `ollama.show`, `pull` is `ollama.pull`, `chatStream` is
`ollama.chat(..., stream=True)` (the whole stream, or the error it
raises), `chatOnce` is `ollama.chat(..., stream=False)`. -/
structure Backend where
  showModel : String → Except String Unit
  pull : String → Except String Unit
  chatStream : String → List ChatMsg → Except String (List Chunk)
  chatOnce : String → List ChatMsg → Except String Chunk

/-- Embeds `get_model(model_name)` from ollama_utils.py: try `ollama.show`; on
success print "already pulled" and return; on any exception print "not
found locally", then try `ollama.pull`, printing a success or failure
line. Every client failure is caught, so the result is always `ok` with
the list of printed lines. -/
def get_model (b : Backend) (name : String) : Except String (List String) :=
  match b.showModel name with
  | Except.ok _ => Except.ok ["Model " ++ name ++ " already pulled."]
  | Except.error _ =>
    let l1 := "Model " ++ name ++ " not found locally."
    match b.pull name with
    | Except.ok _ => Except.ok [l1, "Pulling " ++ name ++ " from ollama."]
    | Except.error _ =>
      Except.ok [l1, "Model " ++ name ++ " not found on ollama, please use a different model"]

/-- Embeds `chat_model(model_name, messages)` from ollama_utils.py: run
`get_model`, then open the streaming chat call and yield
`part.message.content` for each chunk in arrival order. There is no
try/except here, so any error of the streaming call propagates
unmodified. -/
def chat_model (b : Backend) (name : String) (messages : List ChatMsg) :
    Except String (List String) :=
  match get_model b name with
  | Except.error e => Except.error e
  | Except.ok _ =>
    match b.chatStream name messages with
    | Except.error e => Except.error e
    | Except.ok parts => Except.ok (parts.map (fun p => p.message.content))

/-! Python string helpers, modelled on character lists so that they are
structurally recursive. Whitespace is `Char.isWhitespace`. -/

/-- Python `str.strip()`: drop leading and trailing whitespace. -/
def pyStrip (s : List Char) : List Char :=
  ((s.dropWhile Char.isWhitespace).reverse.dropWhile Char.isWhitespace).reverse

/-- Worker for `pySplit`: `acc` holds the current word reversed. -/
def pyWordsAux : List Char → List Char → List (List Char)
  | [], acc => if acc.isEmpty then [] else [acc.reverse]
  | c :: cs, acc =>
    if c.isWhitespace then
      if acc.isEmpty then pyWordsAux cs [] else acc.reverse :: pyWordsAux cs []
    else pyWordsAux cs (c :: acc)

/-- Python `str.split()` with no argument: maximal runs of
non-whitespace characters; never yields empty strings. -/
def pySplit (s : String) : List String :=
  (pyWordsAux s.data []).map List.asString

/-- Python `' '.join(words)`. -/
def joinSpace : List String → String
  | [] => ""
  | [w] => w
  | w :: ws => w ++ " " ++ joinSpace ws

/-- Python `s.replace(c, '')` for a one-character pattern: remove every
occurrence of `c`. -/
def pyRemoveAll (s : String) (c : Char) : String :=
  (s.data.filter (fun d => d != c)).asString

/-- The fixed two-message prompt `generate_chat_title` sends. -/
def prompt_messages (first_message : String) : List ChatMsg :=
  [{ role := "system",
     content := "You are a helpful assistant that creates concise chat titles for a chat history sidebar. Users will see these titles as buttons to identify and select their past conversations. The title should clearly describe the main topic or question. Respond with EXACTLY 3 words, nothing else. No punctuation, no explanation, no extra text." },
   { role := "user",
     content := "Create a clear 3-word title that describes this conversation topic: \"" ++ first_message ++ "\"\n\nThe title will be displayed as a button label in a chat history list. Make it descriptive and easy to understand at a glance." }]

/-- Embeds `generate_chat_title(first_message, model)` from
frontend_utils.py: empty/all-whitespace input short-circuits to
"New Chat" before any client call; otherwise one non-streaming chat
call; on success the response content is stripped, has `.`, `!`, `?`
removed, is whitespace-split and truncated to 3 words; on any exception
the fallback is the first 3 whitespace-split words of the raw input. -/
def generate_chat_title (b : Backend) (first_message model : String) : String :=
  if first_message = "" ∨ pyStrip first_message.data = [] then "New Chat"
  else
    match b.chatOnce model (prompt_messages first_message) with
    | Except.ok response =>
      let title := (pyStrip response.message.content.data).asString
      let words := pySplit (pyRemoveAll (pyRemoveAll (pyRemoveAll title '.') '!') '?')
      if words.length ≥ 3 then joinSpace (words.take 3)
      else if words.length > 0 then joinSpace words
      else "New Chat"
    | Except.error _ =>
      let words := (pySplit first_message).take 3
      if words ≠ [] then joinSpace words else "New Chat"

/-! ## Lemmas about the `LIKE` matcher -/

theorem nil_mem_suffixesOf (s : List Char) : [] ∈ suffixesOf s := by
  induction s with
  | nil => simp [suffixesOf]
  | cons c cs ih => simp only [suffixesOf, List.mem_cons]; exact Or.inr ih

theorem mem_suffixesOf_self (s : List Char) : s ∈ suffixesOf s := by
  cases s with
  | nil => simp [suffixesOf]
  | cons c cs => simp [suffixesOf]

theorem foldChar_noWild {c : Char} (h : c ≠ '%' ∧ c ≠ '_') :
    foldChar c ≠ '%' ∧ foldChar c ≠ '_' := by
  unfold foldChar
  split
  all_goals first | decide | exact h

theorem noWild_foldStr {q : String} (hq : noWild q.data) : noWild (foldStr q) := by
  intro c hc
  simp only [foldStr, List.mem_map] at hc
  obtain ⟨d, hd, rfl⟩ := hc
  exact foldChar_noWild (hq d hd)

theorem likeMatch_nil (s : List Char) : likeMatch [] s = s.isEmpty := by
  rw [likeMatch.eq_def]

theorem likeMatch_pct_cons (ps s : List Char) :
    likeMatch ('%' :: ps) s = (suffixesOf s).any (fun t => likeMatch ps t) := by
  rw [likeMatch.eq_def]
  exact rfl

theorem likeMatch_cons_nil {pc : Char} (ps : List Char) (h1 : pc ≠ '%') :
    likeMatch (pc :: ps) [] = false := by
  rw [likeMatch.eq_def]
  simp [h1]

theorem likeMatch_cons_cons {pc c : Char} (ps s' : List Char)
    (h1 : pc ≠ '%') (h2 : pc ≠ '_') :
    likeMatch (pc :: ps) (c :: s') = (pc == c && likeMatch ps s') := by
  rw [likeMatch.eq_def]
  simp [h1, h2]

theorem likeMatch_append_pct {q : List Char} (hq : noWild q) :
    ∀ t, likeMatch (q ++ ['%']) t = q.isPrefixOf t := by
  induction q with
  | nil =>
    intro t
    simp only [List.nil_append, List.isPrefixOf_nil_left]
    rw [likeMatch_pct_cons, List.any_eq_true]
    exact ⟨[], nil_mem_suffixesOf t, by rw [likeMatch_nil]; rfl⟩
  | cons c q' ih =>
    intro t
    have hc := hq c (List.mem_cons_self c q')
    have hq' : noWild q' := fun x hx => hq x (List.mem_cons_of_mem _ hx)
    simp only [List.cons_append]
    cases t with
    | nil => rw [likeMatch_cons_nil _ hc.1]; rfl
    | cons d t' =>
      rw [likeMatch_cons_cons _ _ hc.1 hc.2, List.isPrefixOf_cons₂, ih hq' t']

theorem likeMatch_sandwich {q : List Char} (hq : noWild q) (s : List Char) :
    likeMatch ('%' :: (q ++ ['%'])) s = containsSub q s := by
  rw [likeMatch_pct_cons, containsSub]
  congr 1
  funext t
  exact likeMatch_append_pct hq t

theorem foldStr_append (a b : String) : foldStr (a ++ b) = foldStr a ++ foldStr b := by
  simp [foldStr, String.data_append]

theorem foldStr_sandwich (q : String) :
    foldStr ("%" ++ q ++ "%") = '%' :: (foldStr q ++ ['%']) := by
  rw [foldStr_append, foldStr_append]
  rfl

/-- For a wildcard-free query, the `LIKE '%query%'` test used by
`search_chats` is exactly case-folded substring containment. -/
theorem likeCI_eq_substrCI {q : String} (hq : noWild q.data) (s : String) :
    likeCI ("%" ++ q ++ "%") s = substrCI q s := by
  rw [likeCI, foldStr_sandwich, substrCI]
  exact likeMatch_sandwich (noWild_foldStr hq) (foldStr s)

/-- The pattern `%%%` produced by the query `"%"` matches every string. -/
theorem likeCI_pct (s : String) : likeCI ("%" ++ "%" ++ "%") s = true := by
  have h1 : ∀ t : List Char, likeMatch ['%'] t = true := by
    intro t
    rw [likeMatch_pct_cons, List.any_eq_true]
    exact ⟨[], nil_mem_suffixesOf t, by rw [likeMatch_nil]; rfl⟩
  have h2 : ∀ t : List Char, likeMatch ['%', '%'] t = true := by
    intro t
    rw [likeMatch_pct_cons, List.any_eq_true]
    exact ⟨t, mem_suffixesOf_self t, h1 t⟩
  rw [likeCI]
  show likeMatch ['%', '%', '%'] (foldStr s) = true
  rw [likeMatch_pct_cons, List.any_eq_true]
  exact ⟨foldStr s, mem_suffixesOf_self _, h2 _⟩

/-! ## Lemmas about the store operations -/

/-- On a well-formed state the `ORDER BY created_at ASC` of
`get_messages` is the identity: rows are stored in creation order and
the clock is strictly monotone. -/
theorem get_messages_eq_filter {s : DBState} (hwf : WF s) (cid : Nat) :
    get_messages s cid = s.messages.filter (fun m => m.chat_id == cid) := by
  apply List.Sorted.insertionSort_eq
  exact ((hwf.msg_strict.imp fun hab => Nat.le_of_lt hab).filter _)

theorem add_message_ok_eq {s : DBState} {cid : Nat} {role content : String}
    (hex : s.chats.any (fun c => c.id == cid) = true) :
    add_message s cid role content = Except.ok (s.nextMessageId,
      { s with
        messages := s.messages ++ [{ id := s.nextMessageId, chat_id := cid, role := role,
                                     content := content, created_at := s.clock }],
        chats := s.chats.map (fun c =>
          if c.id == cid then { c with updated_at := s.clock } else c),
        nextMessageId := s.nextMessageId + 1,
        clock := s.clock + 1 }) := by
  rw [add_message, if_pos hex]

theorem add_message_err_eq {s : DBState} {cid : Nat} {role content : String}
    (hnex : s.chats.any (fun c => c.id == cid) = false) :
    add_message s cid role content = Except.error DBError.foreignKeyViolation := by
  rw [add_message, if_neg (by simp [hnex])]

/-- Bumping a chat's `updated_at` leaves its id unchanged. -/
theorem bump_id (cid t : Nat) (c : Chat) :
    (if c.id == cid then { c with updated_at := t } else c).id = c.id := by
  split <;> rfl

/-- Lemma: `add_message` preserves well-formedness. -/
theorem WF_add {s : DBState} (hwf : WF s) {cid : Nat} {role content : String}
    {i : Nat} {s' : DBState}
    (h : add_message s cid role content = Except.ok (i, s')) : WF s' := by
  rcases hex : s.chats.any (fun c => c.id == cid) with _ | _
  · rw [add_message_err_eq hex] at h; cases h
  · rw [add_message_ok_eq hex] at h
    simp only [Except.ok.injEq, Prod.mk.injEq] at h
    obtain ⟨rfl, rfl⟩ := h
    constructor
    · intro c hc
      simp only [List.mem_map] at hc
      obtain ⟨c₀, hc₀, rfl⟩ := hc
      rw [bump_id]
      exact hwf.chat_ids_lt c₀ hc₀
    · intro m hm
      simp only [List.mem_append, List.mem_singleton] at hm
      rcases hm with hm | rfl
      · exact Nat.lt_succ_of_lt (hwf.msg_ids_lt m hm)
      · exact Nat.lt_succ_self _
    · have hmap : (List.map Chat.id (s.chats.map (fun c =>
          if c.id == cid then { c with updated_at := s.clock } else c))) =
          s.chats.map Chat.id := by
        rw [List.map_map]
        apply List.map_congr_left
        intro c _
        exact bump_id cid s.clock c
      rw [hmap]
      exact hwf.chat_ids_nodup
    · intro c hc
      simp only [List.mem_map] at hc
      obtain ⟨c₀, hc₀, rfl⟩ := hc
      have h₀ := hwf.chat_clock c₀ hc₀
      split
      · exact ⟨Nat.lt_succ_self _, Nat.le_of_lt (Nat.lt_of_le_of_lt h₀.2 h₀.1)⟩
      · exact ⟨Nat.lt_succ_of_lt h₀.1, h₀.2⟩
    · intro m hm
      simp only [List.mem_append, List.mem_singleton] at hm
      rcases hm with hm | rfl
      · exact Nat.lt_succ_of_lt (hwf.msg_clock m hm)
      · exact Nat.lt_succ_self _
    · rw [List.pairwise_append]
      refine ⟨hwf.msg_strict, List.pairwise_singleton _ _, ?_⟩
      intro a ha b hb
      simp only [List.mem_singleton] at hb
      subst hb
      exact hwf.msg_clock a ha

/-- After a successful `add_message`, the chat table keeps the same ids
in the same order. -/
theorem add_message_ids {s : DBState} {cid : Nat} {role content : String}
    {i : Nat} {s' : DBState}
    (h : add_message s cid role content = Except.ok (i, s')) :
    s'.chats.map Chat.id = s.chats.map Chat.id := by
  rcases hex : s.chats.any (fun c => c.id == cid) with _ | _
  · rw [add_message_err_eq hex] at h; cases h
  · rw [add_message_ok_eq hex] at h
    simp only [Except.ok.injEq, Prod.mk.injEq] at h
    obtain ⟨rfl, rfl⟩ := h
    rw [List.map_map]
    apply List.map_congr_left
    intro c _
    exact bump_id cid s.clock c

theorem get_chat_none_iff {s : DBState} {cid : Nat} :
    get_chat s cid = none ↔ s.chats.any (fun c => c.id == cid) = false := by
  rw [get_chat, List.find?_eq_none, List.any_eq_false]

theorem get_chat_ne_none_iff {s : DBState} {cid : Nat} :
    get_chat s cid ≠ none ↔ s.chats.any (fun c => c.id == cid) = true := by
  rw [Ne, get_chat_none_iff]
  cases s.chats.any (fun c => c.id == cid) <;> simp

/-- A successful `add_message` preserves which chats exist. -/
theorem add_message_any {s : DBState} {cid : Nat} {role content : String}
    {i : Nat} {s' : DBState}
    (h : add_message s cid role content = Except.ok (i, s')) (cid' : Nat) :
    s'.chats.any (fun c => c.id == cid') = s.chats.any (fun c => c.id == cid') := by
  have h1 : ∀ t : DBState, (t.chats.map Chat.id).any (fun i => i == cid') =
      t.chats.any (fun c => c.id == cid') := by
    intro t
    induction t.chats with
    | nil => rfl
    | cons c cs ih => simp only [List.map_cons, List.any_cons, ih]
  rw [← h1, ← h1, add_message_ids h]

/-- Effect of a successful `add_message` on `get_messages` of the same
chat: the new row is appended at the end. -/
theorem get_messages_add {s : DBState} (hwf : WF s) {cid : Nat} {role content : String}
    {i : Nat} {s' : DBState}
    (h : add_message s cid role content = Except.ok (i, s')) :
    i = s.nextMessageId ∧
    get_messages s' cid = get_messages s cid ++
      [{ id := s.nextMessageId, chat_id := cid, role := role,
         content := content, created_at := s.clock }] := by
  rcases hex : s.chats.any (fun c => c.id == cid) with _ | _
  · rw [add_message_err_eq hex] at h; cases h
  · have hwf' := WF_add hwf h
    rw [add_message_ok_eq hex] at h
    simp only [Except.ok.injEq, Prod.mk.injEq] at h
    obtain ⟨rfl, rfl⟩ := h
    refine ⟨rfl, ?_⟩
    rw [get_messages_eq_filter hwf' cid, get_messages_eq_filter hwf cid]
    show (s.messages ++ _).filter _ = _
    rw [List.filter_append]
    congr 1
    simp

/-- A successful `add_message` leaves every other chat's message list
unchanged. -/
theorem get_messages_add_other {s : DBState} (hwf : WF s) {cid : Nat}
    {role content : String} {i : Nat} {s' : DBState}
    (h : add_message s cid role content = Except.ok (i, s'))
    {cid' : Nat} (hne : cid' ≠ cid) :
    get_messages s' cid' = get_messages s cid' := by
  rcases hex : s.chats.any (fun c => c.id == cid) with _ | _
  · rw [add_message_err_eq hex] at h; cases h
  · have hwf' := WF_add hwf h
    rw [add_message_ok_eq hex] at h
    simp only [Except.ok.injEq, Prod.mk.injEq] at h
    obtain ⟨rfl, rfl⟩ := h
    rw [get_messages_eq_filter hwf' cid', get_messages_eq_filter hwf cid']
    show (s.messages ++ _).filter _ = _
    rw [List.filter_append]
    have : [({ id := s.nextMessageId, chat_id := cid, role := role,
               content := content, created_at := s.clock } : Message)].filter
        (fun m => m.chat_id == cid') = [] := by
      simp [Ne.symm hne]
    rw [this, List.append_nil]

/-- Effect of a successful `add_message` on `get_chat`: only the parent
chat changes, and only its `updated_at`. -/
theorem get_chat_add {s : DBState} {cid : Nat} {role content : String}
    {i : Nat} {s' : DBState}
    (h : add_message s cid role content = Except.ok (i, s')) (cid' : Nat) :
    get_chat s' cid' = (get_chat s cid').map
      (fun c => if c.id == cid then { c with updated_at := s.clock } else c) := by
  rcases hex : s.chats.any (fun c => c.id == cid) with _ | _
  · rw [add_message_err_eq hex] at h; cases h
  · rw [add_message_ok_eq hex] at h
    simp only [Except.ok.injEq, Prod.mk.injEq] at h
    obtain ⟨rfl, rfl⟩ := h
    show ((s.chats.map _).find? _) = _
    rw [List.find?_map]
    have hp : ((fun c : Chat => c.id == cid') ∘
        (fun c => if c.id == cid then { c with updated_at := s.clock } else c)) =
        (fun c : Chat => c.id == cid') := by
      funext c
      show ((if c.id == cid then { c with updated_at := s.clock } else c).id == cid') = _
      rw [bump_id]
    rw [hp]
    rfl

/-- Lemma: `get_model` never fails: both client calls sit inside try/except. -/
theorem get_model_ok (b : Backend) (name : String) :
    ∃ logs : List String, get_model b name = Except.ok logs := by
  rw [get_model]
  cases b.showModel name with
  | ok u => exact ⟨_, rfl⟩
  | error e =>
    cases b.pull name with
    | ok u => exact ⟨_, rfl⟩
    | error e' => exact ⟨_, rfl⟩

/-- The empty query is a substring of everything. -/
theorem substrCI_empty (t : String) : substrCI "" t = true := by
  rw [substrCI]
  show containsSub [] (foldStr t) = true
  rw [containsSub, List.any_eq_true]
  exact ⟨foldStr t, mem_suffixesOf_self _, List.isPrefixOf_nil_left⟩

/-! ## Claim theorems -/

/-- Claim C8: `delete_chat` removes the chat row and, through the
`ON DELETE CASCADE` foreign key (active because every connection sets
`PRAGMA foreign_keys = ON`), all of its messages: afterwards `get_chat`
is `none` and `get_messages` is `[]`, whatever state the store was in —
in particular even if messages existed beforehand. `delete_chat` is a
total function into `DBState`, so a non-existent id raises no error. -/
theorem delete_chat_cascade (s : DBState) (cid : Nat) :
    get_chat (delete_chat s cid) cid = none ∧
    get_messages (delete_chat s cid) cid = [] := by
  constructor
  · rw [get_chat, List.find?_eq_none]
    intro c hc
    simp only [delete_chat, List.mem_filter] at hc
    simpa using hc.2
  · rw [get_messages]
    have h0 : (delete_chat s cid).messages.filter (fun m => m.chat_id == cid) = [] := by
      rw [List.filter_eq_nil_iff]
      intro m hm
      simp only [delete_chat, List.mem_filter] at hm
      simpa using hm.2
    rw [h0]
    rfl

/-- Claim C7: creating a chat and reading it back by the returned id
round-trips the title and the model exactly — no validation happens, so
this includes empty strings — and the fresh row has
`created_at = updated_at` (both set to the same `CURRENT_TIMESTAMP`). -/
theorem create_chat_get_chat_roundtrip (s : DBState) (title model : String)
    (hwf : WF s) :
    ∃ c : Chat,
      get_chat (create_chat s title model).2 (create_chat s title model).1 = some c ∧
      c.title = title ∧ c.model = model ∧ c.created_at = c.updated_at := by
  refine ⟨{ id := s.nextChatId, title := title, model := model,
            created_at := s.clock, updated_at := s.clock }, ?_, rfl, rfl, rfl⟩
  show (s.chats ++ [_]).find? (fun c : Chat => c.id == s.nextChatId) = _
  rw [List.find?_append]
  have h1 : s.chats.find? (fun c : Chat => c.id == s.nextChatId) = none := by
    rw [List.find?_eq_none]
    intro c hc heq
    have hlt := hwf.chat_ids_lt c hc
    rw [beq_iff_eq] at heq
    omega
  rw [h1, Option.none_or]
  exact List.find?_cons_of_pos _ (by simp)

/-- Witness for C7: the round-trip at a concrete empty store. -/
theorem create_chat_get_chat_roundtrip_witness :
    ∃ c : Chat,
      get_chat (create_chat initState "Python Tutorial" "llama2").2
        (create_chat initState "Python Tutorial" "llama2").1 = some c ∧
      c.title = "Python Tutorial" ∧ c.model = "llama2" ∧
      c.created_at = c.updated_at :=
  create_chat_get_chat_roundtrip initState "Python Tutorial" "llama2"
    (by constructor <;> simp [initState])

/-- Claim C9: `get_model` returns normally for every backend behaviour —
check step and fetch step succeeding or raising in any combination —
and never raises to its caller; the failures are reported only through
the returned console lines. -/
theorem get_model_never_raises (b : Backend) (name : String) :
    ∃ logs : List String, get_model b name = Except.ok logs :=
  get_model_ok b name

/-- A client whose calls succeed and whose streaming chat emits three
fixed fragments in order. -/
def demoStreamBackend : Backend :=
  { showModel := fun _ => Except.ok (),
    pull := fun _ => Except.ok (),
    chatStream := fun _ _ => Except.ok
      [{ message := { content := "The" } },
       { message := { content := " answer" } },
       { message := { content := " is" } }],
    chatOnce := fun _ _ => Except.error "not used" }

/-- A client all of whose calls raise. -/
def errBackend : Backend :=
  { showModel := fun _ => Except.error "connection refused",
    pull := fun _ => Except.error "connection refused",
    chatStream := fun _ _ => Except.error "connection refused",
    chatOnce := fun _ _ => Except.error "connection refused" }

/-- Claim C2: when the streaming call succeeds, `chat_model` yields
exactly the backend's chunks — one yielded string per chunk, in
emission order, with no reordering, dropping or merging: its output is
literally the chunk list mapped to `part.message.content`. -/
theorem chat_model_yields_backend_chunks (b : Backend) (name : String)
    (messages : List ChatMsg) (parts : List Chunk)
    (h : b.chatStream name messages = Except.ok parts) :
    chat_model b name messages = Except.ok (parts.map (fun p => p.message.content)) := by
  obtain ⟨logs, hl⟩ := get_model_ok b name
  simp only [chat_model, hl, h]

/-- Witness for C2: the backend emits "The", " answer", " is" and the
sequence yields exactly those three values, whose concatenation is
"The answer is". -/
theorem chat_model_yields_backend_chunks_witness :
    chat_model demoStreamBackend "llama2" [{ role := "user", content := "hi" }] =
      Except.ok ["The", " answer", " is"] ∧
    String.join ["The", " answer", " is"] = "The answer is" :=
  ⟨chat_model_yields_backend_chunks demoStreamBackend "llama2"
      [{ role := "user", content := "hi" }] _ rfl,
    by decide⟩

/-- Claim C3: any error raised by the underlying streaming chat call is
propagated unmodified by `chat_model`; nothing in it catches, replaces
or swallows errors of the streaming step. -/
theorem chat_model_propagates_stream_error (b : Backend) (name : String)
    (messages : List ChatMsg) (e : String)
    (h : b.chatStream name messages = Except.error e) :
    chat_model b name messages = Except.error e := by
  obtain ⟨logs, hl⟩ := get_model_ok b name
  simp only [chat_model, hl, h]

/-- Witness for C3 at a concrete failing backend. -/
theorem chat_model_propagates_stream_error_witness :
    chat_model errBackend "llama2" [] = Except.error "connection refused" :=
  chat_model_propagates_stream_error errBackend "llama2" [] "connection refused" rfl

/-- Claim C1: `add_message` on a chat id with no chat row fails with the
referential-integrity error and produces no state at all — in
particular the Messages table gains no row; on an existing chat it
returns the fresh message id together with a state in which, as one
unit, the message has been appended to that chat's history (no other
chat's history changes) and the parent chat's `updated_at` has been
bumped to the current timestamp, strictly above its previous value. -/
theorem add_message_referential_integrity (s : DBState) (cid : Nat)
    (role content : String) (hwf : WF s) :
    (get_chat s cid = none →
      add_message s cid role content = Except.error DBError.foreignKeyViolation) ∧
    (get_chat s cid ≠ none →
      ∃ s' : DBState,
        add_message s cid role content = Except.ok (s.nextMessageId, s') ∧
        (get_messages s' cid).map (fun m => (m.id, m.role, m.content)) =
          (get_messages s cid).map (fun m => (m.id, m.role, m.content)) ++
            [(s.nextMessageId, role, content)] ∧
        (∀ cid' : Nat, cid' ≠ cid → get_messages s' cid' = get_messages s cid') ∧
        ∃ c c' : Chat, get_chat s cid = some c ∧ get_chat s' cid = some c' ∧
          c'.updated_at = s.clock ∧ c.updated_at < s.clock) := by
  constructor
  · intro hn
    exact add_message_err_eq (get_chat_none_iff.mp hn)
  · intro hn
    have hex : s.chats.any (fun c => c.id == cid) = true := get_chat_ne_none_iff.mp hn
    have hok := @add_message_ok_eq s cid role content hex
    obtain ⟨c, hc⟩ : ∃ c, get_chat s cid = some c := by
      cases hgc : get_chat s cid with
      | none => exact absurd hgc hn
      | some c => exact ⟨c, rfl⟩
    refine ⟨_, hok, ?_, ?_, ?_⟩
    · have h2 := (get_messages_add hwf hok).2
      rw [h2, List.map_append]
      rfl
    · intro cid' hne
      exact get_messages_add_other hwf hok hne
    · refine ⟨c, { c with updated_at := s.clock }, hc, ?_, rfl, ?_⟩
      · rw [get_chat_add hok cid, hc]
        have hc' : List.find? (fun x : Chat => x.id == cid) s.chats = some c := hc
        have hpc := @List.find?_some Chat (fun x : Chat => x.id == cid) c s.chats hc'
        have hceq : c.id = cid := by simpa using hpc
        simp [hceq]
      · have hc' : List.find? (fun x : Chat => x.id == cid) s.chats = some c := hc
        have hm := List.mem_of_find?_eq_some hc'
        exact (hwf.chat_clock c hm).1

/-- The store after `create_chat("Python Tutorial", "llama2")` on a
fresh database; its only chat has id 1. -/
def demoState : DBState := (create_chat initState "Python Tutorial" "llama2").2

/-- Witness for C1: the successful branch on the concrete one-chat
store. -/
theorem add_message_referential_integrity_witness :
    ∃ s' : DBState,
      add_message demoState 1 "user" "Tell me about Python" =
        Except.ok (demoState.nextMessageId, s') ∧
      (get_messages s' 1).map (fun m => (m.id, m.role, m.content)) =
        (get_messages demoState 1).map (fun m => (m.id, m.role, m.content)) ++
          [(demoState.nextMessageId, "user", "Tell me about Python")] ∧
      (∀ cid' : Nat, cid' ≠ 1 → get_messages s' cid' = get_messages demoState cid') ∧
      ∃ c c' : Chat, get_chat demoState 1 = some c ∧ get_chat s' 1 = some c' ∧
        c'.updated_at = demoState.clock ∧ c.updated_at < demoState.clock :=
  (add_message_referential_integrity demoState 1 "user" "Tell me about Python"
      (by constructor <;> decide)).2 (by decide)

/-- One successful `add_message` step, packaged for chaining. -/
theorem add_message_step {s : DBState} (hwf : WF s) {cid : Nat}
    (hex : s.chats.any (fun c => c.id == cid) = true) (role content : String) :
    ∃ (i : Nat) (s' : DBState),
      add_message s cid role content = Except.ok (i, s') ∧ WF s' ∧
      s'.chats.any (fun c => c.id == cid) = true ∧
      (get_messages s' cid).map Message.content =
        (get_messages s cid).map Message.content ++ [content] := by
  refine ⟨s.nextMessageId, _, @add_message_ok_eq s cid role content hex, ?_, ?_, ?_⟩
  · exact WF_add hwf (add_message_ok_eq hex)
  · exact (add_message_any (add_message_ok_eq hex) cid).trans hex
  · have hm := (get_messages_add hwf (@add_message_ok_eq s cid role content hex)).2
    rw [hm, List.map_append]
    rfl

/-- Claim C6: messages come back in creation order: inserting M1, M2, M3
into one chat in that order and listing returns them in exactly that
order, appended after whatever the chat already contained. -/
theorem get_messages_insertion_order (s : DBState) (cid : Nat) (hwf : WF s)
    (hc : get_chat s cid ≠ none) (r1 c1 r2 c2 r3 c3 : String) :
    ∃ (i1 i2 i3 : Nat) (s1 s2 s3 : DBState),
      add_message s cid r1 c1 = Except.ok (i1, s1) ∧
      add_message s1 cid r2 c2 = Except.ok (i2, s2) ∧
      add_message s2 cid r3 c3 = Except.ok (i3, s3) ∧
      (get_messages s3 cid).map Message.content =
        (get_messages s cid).map Message.content ++ [c1, c2, c3] := by
  have hex : s.chats.any (fun c => c.id == cid) = true := get_chat_ne_none_iff.mp hc
  obtain ⟨i1, s1, ha1, hwf1, hex1, hm1⟩ := add_message_step hwf hex r1 c1
  obtain ⟨i2, s2, ha2, hwf2, hex2, hm2⟩ := add_message_step hwf1 hex1 r2 c2
  obtain ⟨i3, s3, ha3, hwf3, hex3, hm3⟩ := add_message_step hwf2 hex2 r3 c3
  refine ⟨i1, i2, i3, s1, s2, s3, ha1, ha2, ha3, ?_⟩
  rw [hm3, hm2, hm1]
  simp

/-- Witness for C6 on the concrete one-chat store. -/
theorem get_messages_insertion_order_witness :
    ∃ (i1 i2 i3 : Nat) (s1 s2 s3 : DBState),
      add_message demoState 1 "user" "M1" = Except.ok (i1, s1) ∧
      add_message s1 1 "assistant" "M2" = Except.ok (i2, s2) ∧
      add_message s2 1 "user" "M3" = Except.ok (i3, s3) ∧
      (get_messages s3 1).map Message.content =
        (get_messages demoState 1).map Message.content ++ ["M1", "M2", "M3"] :=
  get_messages_insertion_order demoState 1 (by constructor <;> decide) (by decide)
    "user" "M1" "assistant" "M2" "user" "M3"

/-- Claim C4: the title policy, for every backend and every input.
(i) An empty or all-whitespace first message yields the fixed literal
"New Chat" — the backend is arbitrary here, so no backend call is
involved. (ii) If the chat call raises, the result is the first 3
whitespace-split tokens of the raw input space-joined, or "New Chat"
if the input has zero tokens. (iii) On success the response content is
stripped, has periods, exclamation marks and question marks removed,
and is whitespace-split into n tokens; the result is the first
min(3, n) tokens joined with single spaces, or "New Chat" when n = 0. -/
theorem generate_chat_title_policy (b : Backend) (msg model : String) :
    (pyStrip msg.data = [] → generate_chat_title b msg model = "New Chat") ∧
    (∀ e : String, pyStrip msg.data ≠ [] →
      b.chatOnce model (prompt_messages msg) = Except.error e →
      generate_chat_title b msg model =
        (if (pySplit msg).take 3 = [] then "New Chat"
         else joinSpace ((pySplit msg).take 3))) ∧
    (∀ resp : Chunk, pyStrip msg.data ≠ [] →
      b.chatOnce model (prompt_messages msg) = Except.ok resp →
      generate_chat_title b msg model =
        (if pySplit (pyRemoveAll (pyRemoveAll (pyRemoveAll
              (pyStrip resp.message.content.data).asString '.') '!') '?') = []
         then "New Chat"
         else joinSpace ((pySplit (pyRemoveAll (pyRemoveAll (pyRemoveAll
              (pyStrip resp.message.content.data).asString '.') '!') '?')).take
            (min 3 (pySplit (pyRemoveAll (pyRemoveAll (pyRemoveAll
              (pyStrip resp.message.content.data).asString '.') '!') '?')).length)))) := by
  refine ⟨?_, ?_, ?_⟩
  · intro h
    simp only [generate_chat_title]
    rw [if_pos (Or.inr h)]
  · intro e hne herr
    have hcond : ¬(msg = "" ∨ pyStrip msg.data = []) := by
      rintro (rfl | h)
      · exact hne rfl
      · exact hne h
    simp only [generate_chat_title, if_neg hcond, herr]
    by_cases hw : (pySplit msg).take 3 = []
    · rw [if_neg (by simp [hw]), if_pos hw]
    · rw [if_pos hw, if_neg hw]
  · intro resp hne hok
    have hcond : ¬(msg = "" ∨ pyStrip msg.data = []) := by
      rintro (rfl | h)
      · exact hne rfl
      · exact hne h
    simp only [generate_chat_title, if_neg hcond, hok]
    generalize pySplit (pyRemoveAll (pyRemoveAll (pyRemoveAll
      (pyStrip resp.message.content.data).asString '.') '!') '?') = words
    by_cases h3 : words.length ≥ 3
    · rw [if_pos h3, if_neg (by
        intro h0
        rw [h0] at h3
        simp at h3)]
      have : min 3 words.length = 3 := Nat.min_eq_left h3
      rw [this]
    · rw [if_neg h3]
      by_cases h0 : words.length > 0
      · rw [if_pos h0, if_neg (by
          intro hnil
          rw [hnil] at h0
          simp at h0)]
        have hmin : min 3 words.length = words.length := Nat.min_eq_right (by omega)
        rw [hmin, List.take_length]
      · have hnil : words = [] := by
          rw [← List.length_eq_zero]
          omega
        rw [if_neg h0, if_pos hnil]

/-- Witness for C4: the backend raises on "How do I sort a list?" and
the fallback is the first 3 raw tokens, "How do I". -/
theorem generate_chat_title_policy_witness :
    generate_chat_title errBackend "How do I sort a list?" "llama2" = "How do I" := by
  have h := (generate_chat_title_policy errBackend "How do I sort a list?" "llama2").2.1
      "connection refused" (by decide) rfl
  rw [h]
  decide

/-- Counterexample to C5 as stated: `search_chats` feeds the raw query
into a `LIKE` pattern, so for the query "Py%on" — which contains the
wildcard `%` — the store returns the chat titled "Python" (a one-chat,
zero-message store) although "Py%on" is not a case-insensitive literal
substring of "Python"; the claim's universal quantification over all
query strings therefore fails. -/
theorem search_chats_literal_substring_cex :
    ((search_chats (create_chat initState "Python" "m").2 "Py%on").map Chat.title
        = ["Python"]) ∧
    ((create_chat initState "Python" "m").2).messages = [] ∧
    substrCI "Py%on" "Python" = false := by
  decide

/-- Claim C5 (amended: restricted to queries containing neither `LIKE`
wildcard `%` nor `_`): `search_chats` returns exactly the chats whose
title, or some of whose messages' content, contains the query as an
ASCII-case-insensitive substring; each such chat appears once; the
result is ordered by `updated_at` descending; queries equal up to
ASCII case give identical results; the empty query matches every
chat. -/
theorem search_chats_spec (s : DBState) (q : String) (hwf : WF s)
    (hq : noWild q.data) :
    (∀ c : Chat, c ∈ search_chats s q ↔ c ∈ s.chats ∧
      (substrCI q c.title = true ∨
        ∃ m ∈ s.messages, m.chat_id = c.id ∧ substrCI q m.content = true)) ∧
    (search_chats s q).Pairwise updDesc ∧
    (search_chats s q).Nodup ∧
    (∀ q' : String, foldStr q' = foldStr q →
      search_chats s q' = search_chats s q) ∧
    (q = "" → ∀ c ∈ s.chats, c ∈ search_chats s q) := by
  have hlike : ∀ x : String, likeCI ("%" ++ q ++ "%") x = substrCI q x :=
    likeCI_eq_substrCI hq
  have hmem : ∀ c : Chat, c ∈ search_chats s q ↔ c ∈ s.chats ∧
      (substrCI q c.title = true ∨
        ∃ m ∈ s.messages, m.chat_id = c.id ∧ substrCI q m.content = true) := by
    intro c
    simp only [search_chats, List.mem_insertionSort, List.mem_filter,
      Bool.or_eq_true, List.any_eq_true, Bool.and_eq_true, beq_iff_eq, hlike]
  refine ⟨hmem, ?_, ?_, ?_, ?_⟩
  · exact List.sorted_insertionSort updDesc _
  · have hnod : s.chats.Nodup := List.Nodup.of_map _ hwf.chat_ids_nodup
    exact ((List.perm_insertionSort updDesc _).nodup_iff).mpr (hnod.filter _)
  · intro q' hfold
    have hpat : ∀ x : String, likeCI ("%" ++ q' ++ "%") x = likeCI ("%" ++ q ++ "%") x := by
      intro x
      rw [likeCI, likeCI, foldStr_sandwich, foldStr_sandwich, hfold]
    simp only [search_chats, hpat]
  · intro hq0 c hc
    subst hq0
    exact (hmem c).mpr ⟨hc, Or.inl (substrCI_empty c.title)⟩

/-- Two chats, one message in chat 1 ("Tell me about Python"): the
concrete store of the spec's search scenario. -/
def demoState2 : DBState :=
  let s1 := (create_chat initState "Python Tutorial" "llama2").2
  let s2 := (create_chat s1 "JS Guide" "gemma2").2
  match add_message s2 1 "user" "Tell me about Python" with
  | Except.ok r => r.2
  | Except.error _ => s2

/-- Witness for the amended C5 on the concrete two-chat store. -/
theorem search_chats_spec_witness :
    (∀ c : Chat, c ∈ search_chats demoState2 "Python" ↔ c ∈ demoState2.chats ∧
      (substrCI "Python" c.title = true ∨
        ∃ m ∈ demoState2.messages, m.chat_id = c.id ∧
          substrCI "Python" m.content = true)) ∧
    (search_chats demoState2 "Python").Pairwise updDesc ∧
    (search_chats demoState2 "Python").Nodup ∧
    (∀ q' : String, foldStr q' = foldStr "Python" →
      search_chats demoState2 q' = search_chats demoState2 "Python") ∧
    ("Python" = "" → ∀ c ∈ demoState2.chats, c ∈ search_chats demoState2 "Python") :=
  search_chats_spec demoState2 "Python" (by constructor <;> decide) (by decide)

/-- Claim C10: the raw query is embedded in a `LIKE` pattern, so `%` and
`_` act as wildcards, not literal text: the query "%" (pattern `%%%`)
matches every chat of every store, and the query "Hello%World" returns
the chat titled "Hello World" even though it is not a literal
(case-insensitive) substring match. -/
theorem search_chats_wildcard_semantics :
    (∀ (s : DBState) (c : Chat), c ∈ search_chats s "%" ↔ c ∈ s.chats) ∧
    ((search_chats (create_chat initState "Hello World" "m").2 "Hello%World").map
        Chat.title = ["Hello World"]) ∧
    substrCI "Hello%World" "Hello World" = false := by
  refine ⟨?_, by decide, by decide⟩
  intro s c
  have hp : ∀ x : String, likeCI "%%%" x = true := fun x => likeCI_pct x
  simp only [search_chats, List.mem_insertionSort, List.mem_filter]
  simp [hp]

end ChatOllama
